import Mathlib

/-!
Shallow embedding of the security core of `fs-access-api`:

* `internal/app/ports` — hash-algorithm taxonomy and `DetectHashAlgo`
* `internal/adapters/out/security` — `DefaultHasher` (crypt(3)-style and raw
  hex password hashing), `HMACAuthenticator`, `BearerAuthenticator`,
  `MultiAuthenticator`

Go strings are modelled as Lean `String` (lists of characters; all data the
claims touch is ASCII, where byte-level and character-level views agree).
Byte slices are modelled as `List Nat` with values `< 256`.  Go `error`
results are modelled as `Option String` (`none` = `nil`) or `Except String`
where a value is only produced on success.  External cryptographic
primitives (SHA-256, HMAC, the GehirnInc crypt(3) library) and RFC3339
parsing are abstract function parameters; everything the repository itself
computes is embedded concretely.
-/

namespace FsAccessApi

/-! ### Go standard-library string helpers (ASCII fragment) -/

/-- Character test used by Go's `strings.TrimSpace` (`unicode.IsSpace`),
restricted to the Latin-1 cases; whitespace beyond Latin-1 is not used by
any caller in this repository. -/
def goIsSpace (c : Char) : Bool :=
  (9 ≤ c.toNat && c.toNat ≤ 13) || c.toNat = 32 || c.toNat = 133 || c.toNat = 160

/-- ASCII fragment of Go's `unicode.ToLower` applied characterwise:
maps `A`..`Z` (code points 65..90) to `a`..`z`. -/
def asciiLower (c : Char) : Char :=
  if 65 ≤ c.toNat ∧ c.toNat ≤ 90 then Char.ofNat (c.toNat + 32) else c

/-- ASCII fragment of `unicode.ToUpper` applied characterwise. -/
def asciiUpper (c : Char) : Char :=
  if 97 ≤ c.toNat ∧ c.toNat ≤ 122 then Char.ofNat (c.toNat - 32) else c

/-- Go `strings.ToLower` (ASCII fragment). -/
def goToLower (s : String) : String :=
  ⟨s.data.map asciiLower⟩

/-- Go `strings.ToUpper` (ASCII fragment); used only to state claims about
case-altered inputs. -/
def goToUpper (s : String) : String :=
  ⟨s.data.map asciiUpper⟩

/-- Go `strings.EqualFold` (ASCII simple case folding). -/
def goEqFold (a b : String) : Bool :=
  goToLower a == goToLower b

/-- Go `strings.HasPrefix`. -/
def goHasPre (s pre : String) : Bool :=
  List.isPrefixOf pre.data s.data

/-- Go `strings.TrimPrefix`. -/
def goTrimPre (s pre : String) : String :=
  if goHasPre s pre then ⟨s.data.drop pre.data.length⟩ else s

/-- Go `strings.TrimSpace` on the character list. -/
def goTrimList (l : List Char) : List Char :=
  ((l.dropWhile goIsSpace).reverse.dropWhile goIsSpace).reverse

/-- Go `strings.TrimSpace`. -/
def goTrim (s : String) : String :=
  ⟨goTrimList s.data⟩

/-! ### Go `encoding/hex` -/

/-- Digits used by `hex.EncodeToString` (lowercase). -/
def hexDigits : List Char := "0123456789abcdef".data

/-- The hex character of a nibble. -/
def hexDigit (n : Nat) : Char := hexDigits.getD n ' '

/-- Go `hex.EncodeToString` on the underlying character list: every byte
becomes its high and low nibble characters. -/
def hexEncodeL : List Nat → List Char
  | [] => []
  | b :: bs => hexDigit (b / 16) :: hexDigit (b % 16) :: hexEncodeL bs

/-- Go `hex.EncodeToString`. -/
def hexEncode (bs : List Nat) : String := ⟨hexEncodeL bs⟩

/-- Go `hex.DecodeString`'s per-character table (`fromHexChar`):
`0`-`9`, `a`-`f`, `A`-`F`. -/
def hexDigitVal (c : Char) : Option Nat :=
  if 48 ≤ c.toNat ∧ c.toNat ≤ 57 then some (c.toNat - 48)
  else if 97 ≤ c.toNat ∧ c.toNat ≤ 102 then some (c.toNat - 87)
  else if 65 ≤ c.toNat ∧ c.toNat ≤ 70 then some (c.toNat - 55)
  else none

/-- Go `hex.DecodeString` on character lists: fails on odd length or any
non-hex character. -/
def hexDecodeL : List Char → Option (List Nat)
  | [] => some []
  | [_] => none
  | c₁ :: c₂ :: rest =>
    match hexDigitVal c₁, hexDigitVal c₂, hexDecodeL rest with
    | some hi, some lo, some bs => some ((16 * hi + lo) :: bs)
    | _, _, _ => none

/-- Go `hex.DecodeString`. -/
def hexDecode (s : String) : Option (List Nat) := hexDecodeL s.data

/-- Association-list model of a Go map lookup (`m[k]`). -/
def lookupKey {α : Type} : List (String × α) → String → Option α
  | [], _ => none
  | (k, v) :: rest, key => if k = key then some v else lookupKey rest key

/-! ### `internal/app/ports` — hash algorithm taxonomy (`part_019`) -/

/-- Go `type HashAlgo string`. -/
abbrev HashAlgo := String

def AlgoCryptMD5 : HashAlgo := "crypt-md5"
def AlgoCryptSHA256 : HashAlgo := "crypt-sha256"
def AlgoCryptSHA512 : HashAlgo := "crypt-sha512"
def AlgoRawMD5 : HashAlgo := "raw-md5"
def AlgoRawSHA1 : HashAlgo := "raw-sha1"
def AlgoRawSHA256 : HashAlgo := "raw-sha256"
def AlgoRawSHA512 : HashAlgo := "raw-sha512"

/-- Go `ports.ErrUnsupportedAlgorithm` (`errors.go`). -/
def errUnsupportedAlgorithm : String := "unsupported algorithm"

/-- Go `HashAlgo.IsCrypt`: the algorithm name starts with `crypt-`. -/
def isCryptAlgo (a : HashAlgo) : Bool :=
  goHasPre a "crypt-"

/-- Character test of `ports.isHexLen`'s loop body: `0`-`9` or `a`-`f`
(code points 48..57 and 97..102). -/
def hexLowerChar (c : Char) : Bool :=
  (48 ≤ c.toNat && c.toNat ≤ 57) || (97 ≤ c.toNat && c.toNat ≤ 102)

/-- Go `ports.isHexLen`: `s` is exactly `n` characters, each `0-9a-f`. -/
def isHexLen (s : String) (n : Nat) : Bool :=
  if s.length ≠ n then false else s.data.all hexLowerChar

/-- Go `ports.DetectHashAlgo`: trims the stored value, then checks crypt(3)
prefix markers, then (on the lowercased trimmed value) the raw hex digest
lengths; anything else is `ErrUnsupportedAlgorithm` with a zero algorithm. -/
def DetectHashAlgo (hashed : String) : HashAlgo × Option String :=
  let s := goTrim hashed
  let ls := goToLower s
  if goHasPre s "$6$" then (AlgoCryptSHA512, none)
  else if goHasPre s "$5$" then (AlgoCryptSHA256, none)
  else if goHasPre s "$1$" then (AlgoCryptMD5, none)
  else if isHexLen ls 32 then (AlgoRawMD5, none)
  else if isHexLen ls 40 then (AlgoRawSHA1, none)
  else if isHexLen ls 64 then (AlgoRawSHA256, none)
  else if isHexLen ls 128 then (AlgoRawSHA512, none)
  else ("", some errUnsupportedAlgorithm)

/-! ### Specification-side restatement of claim C2's detection rules

`claimDetect` is written from the claim's words, NOT from the source: it
classifies the string it is given by prefix markers first, then by exact
hex length with characters in `[0-9a-fA-F]` (either case directly, no
lowercase normalisation), with no whitespace handling of its own. -/

/-- A character in `[0-9a-fA-F]`, as the claim words it. -/
def hexAnyCaseChar (c : Char) : Bool :=
  (48 ≤ c.toNat && c.toNat ≤ 57) || (97 ≤ c.toNat && c.toNat ≤ 102) ||
    (65 ≤ c.toNat && c.toNat ≤ 70)

/-- Claim C2's classification rules, applied verbatim to the given string. -/
def claimDetect (s : String) : HashAlgo × Option String :=
  if goHasPre s "$6$" then (AlgoCryptSHA512, none)
  else if goHasPre s "$5$" then (AlgoCryptSHA256, none)
  else if goHasPre s "$1$" then (AlgoCryptMD5, none)
  else if s.length == 32 && s.data.all hexAnyCaseChar then (AlgoRawMD5, none)
  else if s.length == 40 && s.data.all hexAnyCaseChar then (AlgoRawSHA1, none)
  else if s.length == 64 && s.data.all hexAnyCaseChar then (AlgoRawSHA256, none)
  else if s.length == 128 && s.data.all hexAnyCaseChar then (AlgoRawSHA512, none)
  else ("", some errUnsupportedAlgorithm)

/-! ### `internal/adapters/out/security` — `DefaultHasher` (`part_010`)

The GehirnInc crypt(3) library and the Go standard hash packages are
external dependencies; they enter the embedding as abstract function
records (`Crypter`, the digest fields of `HashEnv`).  Everything else —
parameter validation, salt generation from a byte stream, salt-spec
construction, algorithm dispatch — is embedded from the source.  The
`crypto/rand` reader is modelled as a list of bytes consumed from the
front, so that "no randomness drawn" is visible as the stream being
returned unchanged. -/

/-- Abstract interface of one GehirnInc `crypt.Crypter`:
`generate plain saltSpec` is `Generate([]byte(plain), []byte(saltSpec))`,
`verifyOk hashed plain` is `Verify(hashed, []byte(plain)) == nil`. -/
structure Crypter where
  generate : String → String → Except String String
  verifyOk : String → String → Bool

/-- Abstract external primitives used by `DefaultHasher`: the three
crypt(3) crypters and the four raw digest functions
(`md5.Sum`, `sha1.Sum`, `sha256.Sum256`, `sha512.Sum512` over the
plaintext's bytes). -/
structure HashEnv where
  md5Crypt : Crypter
  sha256Crypt : Crypter
  sha512Crypt : Crypter
  md5Sum : String → List Nat
  sha1Sum : String → List Nat
  sha256Sum : String → List Nat
  sha512Sum : String → List Nat

/-- Go `security.validateParams`. -/
def validateParams (rounds saltLen : Int) : Option String :=
  if rounds < 1000 ∨ rounds > 1000000 then
    some "rounds must be positive between 1000 and 999999999"
  else if saltLen ≤ 0 ∨ saltLen > 16 then
    some "salt length must be positive and <= 16"
  else none

/-- Go `security.cryptAlphabet`. -/
def cryptAlphabet : String :=
  "./0123456789ABCDEFGHIJKLMNOPQRSTUVWXYZabcdefghijklmnopqrstuvwxyz"

/-- Go `security.randomSalt`: reads `n` bytes from the random stream and
maps each through the crypt(3) alphabet (`b % 64`); fails when the stream
is exhausted (`io.ReadFull` error). -/
def randomSalt (n : Int) (rng : List Nat) : Except String String × List Nat :=
  if rng.length < n.toNat then (.error "unexpected EOF", rng.drop n.toNat)
  else
    (.ok ⟨(rng.take n.toNat).map (fun b => cryptAlphabet.data.getD (b % 64) ' ')⟩,
      rng.drop n.toNat)

/-- Go `security.prepareSaltSpec`: validates parameters, then draws a salt
and builds the crypt(3) salt spec. -/
def prepareSaltSpec (rng : List Nat) (algId : Int) (rounds saltLen : Int) :
    Except String String × List Nat :=
  match validateParams rounds saltLen with
  | some e => (.error e, rng)
  | none =>
    match randomSalt saltLen rng with
    | (.error e, rng') => (.error e, rng')
    | (.ok salt, rng') =>
      (.ok ("$" ++ toString algId ++ "$rounds=" ++ toString rounds ++ "$" ++ salt),
        rng')

/-- Go `security.resolveCrypter`: crypt-class algorithms map to their
crypt(3) id and crypter; anything else is an error. -/
def resolveCrypter (env : HashEnv) (alg : HashAlgo) :
    Except String (Int × Crypter) :=
  if alg = AlgoCryptMD5 then .ok (1, env.md5Crypt)
  else if alg = AlgoCryptSHA256 then .ok (5, env.sha256Crypt)
  else if alg = AlgoCryptSHA512 then .ok (6, env.sha512Crypt)
  else .error ("cannnot create crypter for algorithm " ++ alg ++ ": " ++
    errUnsupportedAlgorithm)

/-- Go `security.resolveHash`: raw-class algorithms map to their one-pass
digest function; anything else is an error. -/
def resolveHash (env : HashEnv) (alg : HashAlgo) :
    Except String (String → List Nat) :=
  if alg = AlgoRawMD5 then .ok env.md5Sum
  else if alg = AlgoRawSHA1 then .ok env.sha1Sum
  else if alg = AlgoRawSHA256 then .ok env.sha256Sum
  else if alg = AlgoRawSHA512 then .ok env.sha512Sum
  else .error ("cannnot create hash for algorithm " ++ alg ++ ": " ++
    errUnsupportedAlgorithm)

/-- The configured state of Go `security.DefaultHasher` that `Hash` reads
(the default parameters used when `rounds`/`saltLen` are `nil`). -/
structure DefaultHasher where
  defaultRounds : Int
  defaultSaltLen : Int

/-- Go `DefaultHasher.Hash`: crypt-class algorithms validate parameters,
draw a salt, and delegate to the algorithm's crypter; raw-class algorithms
hex-encode a single digest of the plaintext and touch neither the
parameters nor the random stream. -/
def DefaultHasher.Hash (env : HashEnv) (c : DefaultHasher) (plain : String)
    (alg : HashAlgo) (rounds saltLen : Option Int) (rng : List Nat) :
    Except String String × List Nat :=
  if isCryptAlgo alg then
    match resolveCrypter env alg with
    | .error e => (.error e, rng)
    | .ok (algId, crypter) =>
      match prepareSaltSpec rng algId (rounds.getD c.defaultRounds)
          (saltLen.getD c.defaultSaltLen) with
      | (.error e, rng') => (.error e, rng')
      | (.ok saltSpec, rng') => (crypter.generate plain saltSpec, rng')
  else
    match resolveHash env alg with
    | .error e => (.error e, rng)
    | .ok h => (.ok (hexEncode (h plain)), rng)

/-- Go `security.stringsEq`: length check, then constant-time byte
comparison — semantically, string equality. -/
def stringsEq (a b : String) : Bool :=
  if a.length ≠ b.length then false else a == b

/-- Go `DefaultHasher.Verify`: detects the algorithm of the stored hash,
then dispatches — crypt-class to the matching crypter's verifier,
raw-class to a constant-time comparison of the lowercased stored value
against the freshly computed hex digest.  Returns
`(verified, alg, error)`. -/
def DefaultHasher.Verify (env : HashEnv) (hashed plain : String) :
    Bool × HashAlgo × Option String :=
  match DetectHashAlgo hashed with
  | (alg, some e) => (false, alg, some e)
  | (alg, none) =>
    if alg = AlgoCryptSHA512 then (env.sha512Crypt.verifyOk hashed plain, alg, none)
    else if alg = AlgoCryptSHA256 then (env.sha256Crypt.verifyOk hashed plain, alg, none)
    else if alg = AlgoCryptMD5 then (env.md5Crypt.verifyOk hashed plain, alg, none)
    else if alg = AlgoRawMD5 then
      (stringsEq (goToLower hashed) (hexEncode (env.md5Sum plain)), alg, none)
    else if alg = AlgoRawSHA1 then
      (stringsEq (goToLower hashed) (hexEncode (env.sha1Sum plain)), alg, none)
    else if alg = AlgoRawSHA256 then
      (stringsEq (goToLower hashed) (hexEncode (env.sha256Sum plain)), alg, none)
    else if alg = AlgoRawSHA512 then
      (stringsEq (goToLower hashed) (hexEncode (env.sha512Sum plain)), alg, none)
    else (false, alg, some "unsupported hash algorithm")

/-! ### Authenticators (`authenticator_hmac.go`, `part_008`, `part_009`)

The authenticators read a fixed set of request headers and the request
line/body.  `Header.Get` returns the empty string for an absent header, so
each header is modelled as a `String` field.  The request body is a byte
list (its buffering/restoration side channel has no effect on the verdict
and is not modelled).  Wall-clock time is an `Int` instant (`now`) passed
to `Verify`; durations share the same timeline. -/

/-- The parts of an `http.Request` read by the authenticators. -/
structure AuthRequest where
  apiKey : String
  authz : String
  tsStr : String
  bodySHA : String
  method : String
  escapedPath : String
  rawQuery : String
  body : List Nat

/-- Abstract Go standard-library primitives used by `HMACAuthenticator`:
`crypto/sha256` over the body bytes, HMAC-SHA256 of the canonical string
under a secret, and `time.Parse(time.RFC3339, ·)` to an instant. -/
structure CryptoEnv where
  sha256Bytes : List Nat → List Nat
  hmacSha256 : List Nat → String → List Nat
  parseRFC3339 : String → Option Int

/-- The state of Go `security.HMACAuthenticator`. -/
structure HMACAuthenticator where
  window : Int
  accessSecrets : List (String × List Nat)

/-- The canonical path: `EscapedPath` plus `?`+`RawQuery` when non-empty. -/
def AuthRequest.pathWithQuery (r : AuthRequest) : String :=
  if r.rawQuery ≠ "" then r.escapedPath ++ "?" ++ r.rawQuery else r.escapedPath

/-- `strings.Join([method, pathWithQuery, tsStr, localHash], "\n")`. -/
def canonicalString (r : AuthRequest) (localHash : String) : String :=
  r.method ++ "\n" ++ r.pathWithQuery ++ "\n" ++ r.tsStr ++ "\n" ++ localHash

/-- Go `HMACAuthenticator.Supports`. -/
def HMACAuthenticator.Supports (s : HMACAuthenticator) (r : AuthRequest) : Bool :=
  goHasPre r.authz "HMAC "

/-- Go `HMACAuthenticator.Verify`: header presence, key resolution, scheme
marker, RFC3339 parse, symmetric inclusive window check, body-hash check
(case-insensitive), then constant-time comparison of the hex-decoded
signature against HMAC-SHA256 of the canonical string. -/
def HMACAuthenticator.Verify (env : CryptoEnv) (s : HMACAuthenticator)
    (now : Int) (r : AuthRequest) : Option String :=
  if r.apiKey = "" ∨ r.authz = "" ∨ r.tsStr = "" ∨ r.bodySHA = "" then
    some "missing auth headers"
  else
    match lookupKey s.accessSecrets r.apiKey with
    | none => some "unknown api key"
    | some secret =>
      if goHasPre r.authz "HMAC " = false then some "invalid auth scheme"
      else
        let sigHex := goTrimPre r.authz "HMAC "
        match env.parseRFC3339 r.tsStr with
        | none => some "bad timestamp"
        | some ts =>
          if now - ts > s.window ∨ now - ts < -s.window then
            some "timestamp outside allowed window"
          else
            let localHash := hexEncode (env.sha256Bytes r.body)
            if goEqFold r.bodySHA localHash = false then some "body hash mismatch"
            else
              let expected := env.hmacSha256 secret (canonicalString r localHash)
              match hexDecode sigHex with
              | none => some "bad signature encoding"
              | some provided =>
                if provided = expected then none else some "bad signature"

/-- The state of Go `security.BearerAuthenticator` (secrets kept as the
trimmed hex strings). -/
structure BearerAuthenticator where
  accessSecrets : List (String × String)

/-- Go `BearerAuthenticator.Supports`. -/
def BearerAuthenticator.Supports (s : BearerAuthenticator) (r : AuthRequest) : Bool :=
  goHasPre r.authz "Bearer "

/-- Go `BearerAuthenticator.Verify`: header presence, key resolution,
scheme marker, then direct string equality of the presented token with the
stored secret hex. -/
def BearerAuthenticator.Verify (s : BearerAuthenticator) (r : AuthRequest) :
    Option String :=
  if r.apiKey = "" ∨ r.authz = "" then some "missing auth headers"
  else
    match lookupKey s.accessSecrets r.apiKey with
    | none => some "unknown api key"
    | some secretHex =>
      if goHasPre r.authz "Bearer " = false then some "invalid auth scheme"
      else if goTrimPre r.authz "Bearer " ≠ secretHex then some "not verified"
      else none

/-- The `ports.Authenticator` capability pair held by the dispatcher. -/
structure PortsAuthenticator where
  supports : AuthRequest → Bool
  verify : AuthRequest → Option String

/-- The state of Go `security.MultiAuthenticator` (map of scheme name to
authenticator; modelled as an association list, iteration in list order). -/
structure MultiAuthenticator where
  authenticators : List (String × PortsAuthenticator)

/-- Go `MultiAuthenticator.Supports`: any held authenticator supports. -/
def MultiAuthenticator.Supports (s : MultiAuthenticator) (r : AuthRequest) : Bool :=
  s.authenticators.any (fun a => a.2.supports r)

/-- The dispatcher's range loop: first held authenticator whose `Supports`
is positive. -/
def firstSupporting : List (String × PortsAuthenticator) → AuthRequest →
    Option PortsAuthenticator
  | [], _ => none
  | a :: rest, r => if a.2.supports r then some a.2 else firstSupporting rest r

/-- Go `MultiAuthenticator.Verify`: missing-`Authorization` guard, then the
first supporting authenticator's verdict, else scheme-not-supported. -/
def MultiAuthenticator.Verify (s : MultiAuthenticator) (r : AuthRequest) :
    Option String :=
  if r.authz = "" then some "missing 'Authorization' header"
  else
    match firstSupporting s.authenticators r with
    | some a => a.verify r
    | none => some "authorization scheme not supported"

/-! ### Derived definitions and concrete instances used by the proofs -/

/-- The salt string drawn from the front of the random stream. -/
def saltOf (n : Int) (rng : List Nat) : String :=
  ⟨(rng.take n.toNat).map (fun b => cryptAlphabet.data.getD (b % 64) ' ')⟩

/-- Contract of the external GehirnInc crypt(3) library assumed by the
roundtrip claim: `Generate` succeeds and returns the salt spec followed by
`$` and a digest, and `Verify` accepts its own output against the same
plaintext. -/
def CrypterContract (cr : Crypter) : Prop :=
  ∀ p spec : String, ∃ d : String,
    cr.generate p spec = .ok (spec ++ "$" ++ d) ∧
    cr.verifyOk (spec ++ "$" ++ d) p = true

/-- The raw algorithm selected by a hex digest's length. -/
def rawAlgoOfLen (n : Nat) : HashAlgo :=
  if n = 32 then AlgoRawMD5 else if n = 40 then AlgoRawSHA1
  else if n = 64 then AlgoRawSHA256 else AlgoRawSHA512

/-- The window fixing in `NewHMACAuthenticator`: a non-positive configured
window falls back to 5 minutes (300 on the timeline in seconds). -/
def newHMACWindow (configuredSeconds : Int) : Int :=
  if configuredSeconds ≤ 0 then 300 else configuredSeconds

def someBearer : BearerAuthenticator := ⟨[("key1", "aabb")]⟩

def bearerReq : AuthRequest :=
  ⟨"key1", "Bearer " ++ "aabb", "", "", "GET", "/p", "", []⟩

def trivAuth : PortsAuthenticator :=
  ⟨fun r => goHasPre r.authz "Bearer ", fun _ => none⟩

def trivMulti : MultiAuthenticator := ⟨[("bearer", trivAuth)]⟩

/-- Toy crypter satisfying the crypt(3) output-format contract. -/
def trivCrypter : Crypter :=
  ⟨fun _ spec => .ok (spec ++ "$D"), fun _ _ => true⟩

/-- Toy external-primitive environment for evaluating the hasher on
concrete inputs. -/
def trivHashEnv : HashEnv :=
  ⟨trivCrypter, trivCrypter, trivCrypter,
    fun _ => List.replicate 16 0, fun _ => List.replicate 20 1,
    fun _ => List.replicate 32 2, fun _ => List.replicate 64 3⟩

/-- A hasher configured with the repository's defaults (rounds=5000,
salt=16). -/
def someHasher : DefaultHasher := ⟨5000, 16⟩

/-- Toy standard-library primitives for concrete evaluation: the body hash
is the body's length, the MAC is the message's character codes, and only
the literal timestamp `T0` parses (to instant 0). -/
def trivCryptoEnv : CryptoEnv :=
  ⟨fun l => [l.length % 256],
   fun _ msg => msg.data.map Char.toNat,
   fun t => if t = "T0" then some 0 else none⟩

def someHmacAuth : HMACAuthenticator := ⟨300, [("key1", [1, 2])]⟩

/-- A concrete request correctly signed under `trivCryptoEnv`. -/
def hmacReq : AuthRequest :=
  { apiKey := "key1"
    authz := "HMAC " ++ hexEncode (("GET\n/p\nT0\n00").data.map Char.toNat)
    tsStr := "T0"
    bodySHA := "00"
    method := "GET"
    escapedPath := "/p"
    rawQuery := ""
    body := [] }

/-! ### Character-level helper lemmas -/

theorem char_toNat_ofNat {n : Nat} (h : n < 55296) : (Char.ofNat n).toNat = n := by
  have hv : n.isValidChar := Or.inl h
  simp [Char.ofNat, hv, Char.ofNatAux, Char.toNat, UInt32.toNat]

theorem hexLowerChar_asciiLower (c : Char) :
    hexLowerChar (asciiLower c) = hexAnyCaseChar c := by
  unfold asciiLower
  by_cases h : 65 ≤ c.toNat ∧ c.toNat ≤ 90
  · rw [if_pos h]
    have hv : (Char.ofNat (c.toNat + 32)).toNat = c.toNat + 32 :=
      char_toNat_ofNat (by omega)
    rw [Bool.eq_iff_iff]
    simp only [hexLowerChar, hexAnyCaseChar, Bool.or_eq_true, Bool.and_eq_true,
      decide_eq_true_eq, hv]
    omega
  · rw [if_neg h]
    rw [Bool.eq_iff_iff]
    simp only [hexLowerChar, hexAnyCaseChar, Bool.or_eq_true, Bool.and_eq_true,
      decide_eq_true_eq]
    omega

theorem isHexLen_toLower (t : String) (n : Nat) :
    isHexLen (goToLower t) n = (t.length == n && t.data.all hexAnyCaseChar) := by
  have hcomp : hexLowerChar ∘ asciiLower = hexAnyCaseChar :=
    funext hexLowerChar_asciiLower
  unfold isHexLen goToLower
  have hlen : (⟨t.data.map asciiLower⟩ : String).length = t.length := by
    show (t.data.map asciiLower).length = t.data.length
    simp
  by_cases h : t.length = n
  · rw [if_neg (by simpa [hlen] using h)]
    rw [List.all_map, hcomp]
    simp [h]
  · rw [if_pos (by simpa [hlen] using h)]
    simp [h]

/-! ### Claim C2 — algorithm detection rules -/

/-- C2 counterexample: the 32-character lowercase-hex MD5 digest of
`password` with one trailing space appended.  The claim's rules, applied to
the string itself, classify it as unsupported (33 characters, no crypt
marker); the code classifies it as `RawMD5` because detection first trims
surrounding whitespace. -/
theorem C2_counterexample :
    DetectHashAlgo "5f4dcc3b5aa765d61d8327deb882cf99 " = (AlgoRawMD5, none) ∧
    claimDetect "5f4dcc3b5aa765d61d8327deb882cf99 " =
      ("", some errUnsupportedAlgorithm) := by
  constructor <;> decide

/-- C2 (amended): `DetectHashAlgo` implements exactly the claim's
classification rules — crypt(3) prefix markers first, then exact hex
lengths 32/40/64/128 with characters in `[0-9a-fA-F]`, otherwise an
unsupported-algorithm error — applied to the whitespace-trimmed stored
string (a total, side-effect-free function of the string). -/
theorem C2_detect_classifies_trimmed (s : String) :
    DetectHashAlgo s = claimDetect (goTrim s) := by
  unfold DetectHashAlgo claimDetect
  simp only [isHexLen_toLower]

/-! ### Claim C3 — Verify errs exactly when detection errs -/

theorem detect_ok_range (s : String) (h : (DetectHashAlgo s).2 = none) :
    (DetectHashAlgo s).1 = AlgoCryptSHA512 ∨ (DetectHashAlgo s).1 = AlgoCryptSHA256 ∨
    (DetectHashAlgo s).1 = AlgoCryptMD5 ∨ (DetectHashAlgo s).1 = AlgoRawMD5 ∨
    (DetectHashAlgo s).1 = AlgoRawSHA1 ∨ (DetectHashAlgo s).1 = AlgoRawSHA256 ∨
    (DetectHashAlgo s).1 = AlgoRawSHA512 := by
  unfold DetectHashAlgo at *
  dsimp only at *
  split_ifs at * <;> simp_all

/-- C3: `DefaultHasher.Verify` returns the algorithm and the error of
`DetectHashAlgo` unchanged — in particular the error is non-nil exactly
when the stored hash matches none of the seven supported shapes, and any
classified stored value (matching or not) yields `err = nil`. -/
theorem C3_verify_error_iff_detect (env : HashEnv) (hashed plain : String) :
    (DefaultHasher.Verify env hashed plain).2.1 = (DetectHashAlgo hashed).1 ∧
    (DefaultHasher.Verify env hashed plain).2.2 = (DetectHashAlgo hashed).2 := by
  unfold DefaultHasher.Verify
  rcases hd : DetectHashAlgo hashed with ⟨alg, err⟩
  cases err with
  | some e => simp
  | none =>
    have seven := detect_ok_range hashed (by rw [hd])
    rw [hd] at seven
    simp only at seven
    rcases seven with h | h | h | h | h | h | h <;> subst h <;>
      simp [AlgoCryptSHA512, AlgoCryptSHA256, AlgoCryptMD5, AlgoRawMD5,
        AlgoRawSHA1, AlgoRawSHA256, AlgoRawSHA512]

/-! ### Claim C6 — raw-class hashing is a pure function of the plaintext -/

/-- C6: for each raw-class algorithm, `Hash` equals the lowercase hex
encoding of the one-pass digest of the plaintext, for every choice of
`rounds`, `saltLength` and random stream — so two calls with the same
plaintext agree — and the random stream is returned unread. -/
theorem C6_raw_hash_deterministic (env : HashEnv) (c : DefaultHasher)
    (plain : String) (rounds saltLen : Option Int) (rng : List Nat) :
    DefaultHasher.Hash env c plain AlgoRawMD5 rounds saltLen rng
        = (.ok (hexEncode (env.md5Sum plain)), rng) ∧
    DefaultHasher.Hash env c plain AlgoRawSHA1 rounds saltLen rng
        = (.ok (hexEncode (env.sha1Sum plain)), rng) ∧
    DefaultHasher.Hash env c plain AlgoRawSHA256 rounds saltLen rng
        = (.ok (hexEncode (env.sha256Sum plain)), rng) ∧
    DefaultHasher.Hash env c plain AlgoRawSHA512 rounds saltLen rng
        = (.ok (hexEncode (env.sha512Sum plain)), rng) := by
  refine ⟨?_, ?_, ?_, ?_⟩ <;>
    simp [DefaultHasher.Hash, resolveHash, isCryptAlgo, AlgoRawMD5, AlgoRawSHA1,
      AlgoRawSHA256, AlgoRawSHA512, goHasPre]

/-! ### Claim C7 — crypt-class parameter validation precedes randomness -/

/-- C7: for crypt-class algorithms, `rounds` outside `[1000, 1000000]` or
`saltLength` outside `[1, 16]` makes `Hash` return exactly the validation
error with the random stream untouched (no salt drawn, no hash produced);
and `validateParams` accepts precisely the parameters inside both
ranges. -/
theorem C7_crypt_param_validation (env : HashEnv) (c : DefaultHasher)
    (plain : String) (alg : HashAlgo) (rounds saltLen : Int) (rng : List Nat)
    (halg : alg = AlgoCryptMD5 ∨ alg = AlgoCryptSHA256 ∨ alg = AlgoCryptSHA512)
    (hbad : rounds < 1000 ∨ rounds > 1000000 ∨ saltLen < 1 ∨ saltLen > 16) :
    DefaultHasher.Hash env c plain alg (some rounds) (some saltLen) rng
        = (.error ((validateParams rounds saltLen).getD ""), rng) ∧
    (∀ r s : Int, validateParams r s = none ↔
        (1000 ≤ r ∧ r ≤ 1000000 ∧ 1 ≤ s ∧ s ≤ 16)) := by
  constructor
  · have hval : ∃ e, validateParams rounds saltLen = some e := by
      unfold validateParams
      split_ifs with h1 h2
      · exact ⟨_, rfl⟩
      · exact ⟨_, rfl⟩
      · exact absurd hbad (by omega)
    obtain ⟨e, he⟩ := hval
    rcases halg with h | h | h <;> subst h <;>
      simp [DefaultHasher.Hash, resolveCrypter, prepareSaltSpec, isCryptAlgo,
        AlgoCryptMD5, AlgoCryptSHA256, AlgoCryptSHA512, goHasPre, he]
  · intro r s
    unfold validateParams
    split_ifs with h1 h2 <;> simp <;> omega

/-! ### List and trim lemmas -/

theorem dropWhile_append_cases (p : Char → Bool) (a b : List Char) :
    List.dropWhile p (a ++ b) = List.dropWhile p a ++ b ∨
      (List.dropWhile p a = [] ∧ List.dropWhile p (a ++ b) = List.dropWhile p b) := by
  induction a with
  | nil => right; simp
  | cons x xs ih =>
    by_cases hx : p x
    · simpa [List.dropWhile, hx] using ih
    · left; simp [List.dropWhile, hx]

/-- Trimming keeps a whitespace-free nonempty front segment in place. -/
theorem goTrimList_front (pre rest : List Char) (hne : pre ≠ [])
    (hsp : ∀ c ∈ pre, goIsSpace c = false) :
    ∃ r', goTrimList (pre ++ rest) = pre ++ r' := by
  unfold goTrimList
  obtain ⟨c, cs, rfl⟩ : ∃ c cs, pre = c :: cs := by
    cases pre with
    | nil => exact absurd rfl hne
    | cons c cs => exact ⟨c, cs, rfl⟩
  have hc : goIsSpace c = false := hsp c (by simp)
  rw [List.cons_append, List.dropWhile_cons_of_neg (by simp [hc]), ← List.cons_append]
  have hrev : (c :: cs).reverse ≠ [] := by simp
  rcases dropWhile_append_cases goIsSpace rest.reverse (c :: cs).reverse with h | ⟨_, h⟩
  · rw [List.reverse_append, h, List.reverse_append, List.reverse_reverse]
    exact ⟨_, rfl⟩
  · rw [List.reverse_append, h]
    have : List.dropWhile goIsSpace (c :: cs).reverse = (c :: cs).reverse := by
      cases hrc : (c :: cs).reverse with
      | nil => exact absurd hrc hrev
      | cons d ds =>
        have hd : d ∈ (c :: cs) := by
          have hm : d ∈ (c :: cs).reverse := by rw [hrc]; simp
          exact List.mem_reverse.mp hm
        rw [List.dropWhile_cons_of_neg (by simp [hsp d hd])]
    rw [this, List.reverse_reverse]
    exact ⟨[], by simp⟩

/-- A whitespace-free prefix survives `TrimSpace`. -/
theorem goHasPre_goTrim (s pre : String) (hne : pre.data ≠ [])
    (hsp : ∀ c ∈ pre.data, goIsSpace c = false)
    (h : goHasPre s pre = true) : goHasPre (goTrim s) pre = true := by
  have hp : pre.data <+: s.data := by
    simpa [goHasPre, List.isPrefixOf_iff_prefix] using h
  obtain ⟨rest, hrest⟩ := hp
  obtain ⟨r', hr'⟩ := goTrimList_front pre.data rest hne hsp
  unfold goTrim goHasPre
  show List.isPrefixOf pre.data (goTrimList s.data) = true
  rw [← hrest, hr']
  simp [List.isPrefixOf_iff_prefix]

/-! ### Detection of crypt(3)-marked strings -/

theorem detect_dollar6 (s : String) (h : goHasPre s "$6$" = true) :
    DetectHashAlgo s = (AlgoCryptSHA512, none) := by
  have h6 := goHasPre_goTrim s "$6$" (by decide) (by decide) h
  unfold DetectHashAlgo
  simp [h6]

theorem hasPre_five_not_six (t : String) (h : goHasPre t "$5$" = true) :
    goHasPre t "$6$" = false := by
  obtain ⟨r, hr⟩ : ∃ r, t.data = '$' :: '5' :: '$' :: r := by
    have hp : ("$5$" : String).data <+: t.data := by
      simpa [goHasPre, List.isPrefixOf_iff_prefix] using h
    obtain ⟨r, hr⟩ := hp
    exact ⟨r, by rw [← hr]; rfl⟩
  simp [goHasPre, hr, List.isPrefixOf]

theorem detect_dollar5 (s : String) (h : goHasPre s "$5$" = true) :
    DetectHashAlgo s = (AlgoCryptSHA256, none) := by
  have h5 := goHasPre_goTrim s "$5$" (by decide) (by decide) h
  have h6 := hasPre_five_not_six _ h5
  unfold DetectHashAlgo
  simp [h5, h6]

theorem hasPre_one_not_six (t : String) (h : goHasPre t "$1$" = true) :
    goHasPre t "$6$" = false := by
  obtain ⟨r, hr⟩ : ∃ r, t.data = '$' :: '1' :: '$' :: r := by
    have hp : ("$1$" : String).data <+: t.data := by
      simpa [goHasPre, List.isPrefixOf_iff_prefix] using h
    obtain ⟨r, hr⟩ := hp
    exact ⟨r, by rw [← hr]; rfl⟩
  simp [goHasPre, hr, List.isPrefixOf]

theorem hasPre_one_not_five (t : String) (h : goHasPre t "$1$" = true) :
    goHasPre t "$5$" = false := by
  obtain ⟨r, hr⟩ : ∃ r, t.data = '$' :: '1' :: '$' :: r := by
    have hp : ("$1$" : String).data <+: t.data := by
      simpa [goHasPre, List.isPrefixOf_iff_prefix] using h
    obtain ⟨r, hr⟩ := hp
    exact ⟨r, by rw [← hr]; rfl⟩
  simp [goHasPre, hr, List.isPrefixOf]

theorem detect_dollar1 (s : String) (h : goHasPre s "$1$" = true) :
    DetectHashAlgo s = (AlgoCryptMD5, none) := by
  have h1 := goHasPre_goTrim s "$1$" (by decide) (by decide) h
  have h6 := hasPre_one_not_six _ h1
  have h5 := hasPre_one_not_five _ h1
  unfold DetectHashAlgo
  simp [h1, h5, h6]

/-! ### Computation lemmas for the crypt-class `Hash` path -/

theorem randomSalt_ok {n : Int} {rng : List Nat} (h : n.toNat ≤ rng.length) :
    randomSalt n rng = (.ok (saltOf n rng), rng.drop n.toNat) := by
  unfold randomSalt saltOf
  rw [if_neg (by omega)]

theorem saltOf_length {n : Int} {rng : List Nat} (h : n.toNat ≤ rng.length) :
    (saltOf n rng).data.length = n.toNat := by
  unfold saltOf
  simp [List.length_take]
  omega

theorem prepareSaltSpec_ok {rng : List Nat} {algId rounds saltLen : Int}
    (hr : 1000 ≤ rounds ∧ rounds ≤ 1000000) (hs : 1 ≤ saltLen ∧ saltLen ≤ 16)
    (hlen : saltLen.toNat ≤ rng.length) :
    prepareSaltSpec rng algId rounds saltLen =
      (.ok ("$" ++ toString algId ++ "$rounds=" ++ toString rounds ++ "$" ++
        saltOf saltLen rng), rng.drop saltLen.toNat) := by
  have hv : validateParams rounds saltLen = none := by
    unfold validateParams
    rw [if_neg (by omega), if_neg (by omega)]
  unfold prepareSaltSpec
  rw [hv, randomSalt_ok hlen]

theorem hash_crypt_eq (env : HashEnv) (c : DefaultHasher) (plain : String)
    (alg : HashAlgo) (algId : Int) (crypter : Crypter) (rounds saltLen : Int)
    (rng : List Nat)
    (hres : resolveCrypter env alg = .ok (algId, crypter))
    (hcrypt : isCryptAlgo alg = true)
    (hr : 1000 ≤ rounds ∧ rounds ≤ 1000000) (hs : 1 ≤ saltLen ∧ saltLen ≤ 16)
    (hlen : saltLen.toNat ≤ rng.length) :
    DefaultHasher.Hash env c plain alg (some rounds) (some saltLen) rng =
      (crypter.generate plain ("$" ++ toString algId ++ "$rounds=" ++
        toString rounds ++ "$" ++ saltOf saltLen rng), rng.drop saltLen.toNat) := by
  unfold DefaultHasher.Hash
  rw [hcrypt]
  simp only [if_true, hres, Option.getD_some]
  rw [prepareSaltSpec_ok hr hs hlen]

/-! ### Verify's dispatch on crypt-class detection results -/

theorem verify_dispatch_sha512 (env : HashEnv) (hashed plain : String)
    (hdet : DetectHashAlgo hashed = (AlgoCryptSHA512, none)) :
    DefaultHasher.Verify env hashed plain =
      (env.sha512Crypt.verifyOk hashed plain, AlgoCryptSHA512, none) := by
  unfold DefaultHasher.Verify
  rw [hdet]
  simp [AlgoCryptSHA512]

theorem verify_dispatch_sha256 (env : HashEnv) (hashed plain : String)
    (hdet : DetectHashAlgo hashed = (AlgoCryptSHA256, none)) :
    DefaultHasher.Verify env hashed plain =
      (env.sha256Crypt.verifyOk hashed plain, AlgoCryptSHA256, none) := by
  unfold DefaultHasher.Verify
  rw [hdet]
  simp [AlgoCryptSHA512, AlgoCryptSHA256]

theorem verify_dispatch_md5 (env : HashEnv) (hashed plain : String)
    (hdet : DetectHashAlgo hashed = (AlgoCryptMD5, none)) :
    DefaultHasher.Verify env hashed plain =
      (env.md5Crypt.verifyOk hashed plain, AlgoCryptMD5, none) := by
  unfold DefaultHasher.Verify
  rw [hdet]
  simp [AlgoCryptSHA512, AlgoCryptSHA256, AlgoCryptMD5]

/-! ### Detection of generated crypt strings -/

theorem detect_spec6 (tR salt d : String) :
    DetectHashAlgo ("$" ++ toString (6 : Int) ++ "$rounds=" ++ tR ++ "$" ++
      salt ++ "$" ++ d) = (AlgoCryptSHA512, none) := by
  apply detect_dollar6
  have h1 : ("$6$" : String).data <+: ("$" ++ toString (6 : Int) ++ "$rounds=").data := by
    have : List.isPrefixOf ("$6$" : String).data
        ("$" ++ toString (6 : Int) ++ "$rounds=").data = true := by decide
    simpa [List.isPrefixOf_iff_prefix] using this
  have h2 : ("$" ++ toString (6 : Int) ++ "$rounds=").data <+:
      ("$" ++ toString (6 : Int) ++ "$rounds=" ++ tR ++ "$" ++ salt ++ "$" ++ d).data :=
    ⟨(tR ++ "$" ++ salt ++ "$" ++ d).data, by
      simp [String.data_append, List.append_assoc]⟩
  simpa [goHasPre, List.isPrefixOf_iff_prefix] using h1.trans h2

theorem detect_spec5 (tR salt d : String) :
    DetectHashAlgo ("$" ++ toString (5 : Int) ++ "$rounds=" ++ tR ++ "$" ++
      salt ++ "$" ++ d) = (AlgoCryptSHA256, none) := by
  apply detect_dollar5
  have h1 : ("$5$" : String).data <+: ("$" ++ toString (5 : Int) ++ "$rounds=").data := by
    have : List.isPrefixOf ("$5$" : String).data
        ("$" ++ toString (5 : Int) ++ "$rounds=").data = true := by decide
    simpa [List.isPrefixOf_iff_prefix] using this
  have h2 : ("$" ++ toString (5 : Int) ++ "$rounds=").data <+:
      ("$" ++ toString (5 : Int) ++ "$rounds=" ++ tR ++ "$" ++ salt ++ "$" ++ d).data :=
    ⟨(tR ++ "$" ++ salt ++ "$" ++ d).data, by
      simp [String.data_append, List.append_assoc]⟩
  simpa [goHasPre, List.isPrefixOf_iff_prefix] using h1.trans h2

theorem detect_spec1 (tR salt d : String) :
    DetectHashAlgo ("$" ++ toString (1 : Int) ++ "$rounds=" ++ tR ++ "$" ++
      salt ++ "$" ++ d) = (AlgoCryptMD5, none) := by
  apply detect_dollar1
  have h1 : ("$1$" : String).data <+: ("$" ++ toString (1 : Int) ++ "$rounds=").data := by
    have : List.isPrefixOf ("$1$" : String).data
        ("$" ++ toString (1 : Int) ++ "$rounds=").data = true := by decide
    simpa [List.isPrefixOf_iff_prefix] using this
  have h2 : ("$" ++ toString (1 : Int) ++ "$rounds=").data <+:
      ("$" ++ toString (1 : Int) ++ "$rounds=" ++ tR ++ "$" ++ salt ++ "$" ++ d).data :=
    ⟨(tR ++ "$" ++ salt ++ "$" ++ d).data, by
      simp [String.data_append, List.append_assoc]⟩
  simpa [goHasPre, List.isPrefixOf_iff_prefix] using h1.trans h2

/-! ### Claim C5 — crypt-class Hash/Verify roundtrip and salted distinctness -/

theorem crypt_roundtrip_core (env : HashEnv) (c : DefaultHasher)
    (plain : String) (alg : HashAlgo) (algId : Int) (crypter : Crypter)
    (rounds saltLen : Int) (rr₁ rr₂ : List Nat)
    (hres : resolveCrypter env alg = .ok (algId, crypter))
    (hcrypt : isCryptAlgo alg = true)
    (hdisp : ∀ h' : String, DetectHashAlgo h' = (alg, none) →
        DefaultHasher.Verify env h' plain = (crypter.verifyOk h' plain, alg, none))
    (hdet : ∀ tR salt d : String,
        DetectHashAlgo ("$" ++ toString algId ++ "$rounds=" ++ tR ++ "$" ++
          salt ++ "$" ++ d) = (alg, none))
    (hcon : CrypterContract crypter)
    (hr : 1000 ≤ rounds ∧ rounds ≤ 1000000) (hs : 1 ≤ saltLen ∧ saltLen ≤ 16)
    (hlen₁ : saltLen.toNat ≤ rr₁.length) (hlen₂ : saltLen.toNat ≤ rr₂.length)
    (hsalt : (randomSalt saltLen rr₁).1 ≠ (randomSalt saltLen rr₂).1) :
    ∃ h₁ h₂ : String,
      (DefaultHasher.Hash env c plain alg (some rounds) (some saltLen) rr₁).1 = .ok h₁ ∧
      (DefaultHasher.Hash env c plain alg (some rounds) (some saltLen) rr₂).1 = .ok h₂ ∧
      DefaultHasher.Verify env h₁ plain = (true, alg, none) ∧
      DefaultHasher.Verify env h₂ plain = (true, alg, none) ∧
      h₁ ≠ h₂ := by
  obtain ⟨d₁, hg₁, hv₁⟩ := hcon plain
    ("$" ++ toString algId ++ "$rounds=" ++ toString rounds ++ "$" ++ saltOf saltLen rr₁)
  obtain ⟨d₂, hg₂, hv₂⟩ := hcon plain
    ("$" ++ toString algId ++ "$rounds=" ++ toString rounds ++ "$" ++ saltOf saltLen rr₂)
  have hsne : saltOf saltLen rr₁ ≠ saltOf saltLen rr₂ := by
    intro he
    apply hsalt
    rw [randomSalt_ok hlen₁, randomSalt_ok hlen₂]
    simp [he]
  refine ⟨"$" ++ toString algId ++ "$rounds=" ++ toString rounds ++ "$" ++
      saltOf saltLen rr₁ ++ "$" ++ d₁,
    "$" ++ toString algId ++ "$rounds=" ++ toString rounds ++ "$" ++
      saltOf saltLen rr₂ ++ "$" ++ d₂, ?_, ?_, ?_, ?_, ?_⟩
  · rw [hash_crypt_eq env c plain alg algId crypter rounds saltLen rr₁ hres hcrypt hr hs hlen₁]
    simp [hg₁]
  · rw [hash_crypt_eq env c plain alg algId crypter rounds saltLen rr₂ hres hcrypt hr hs hlen₂]
    simp [hg₂]
  · rw [hdisp _ (hdet (toString rounds) (saltOf saltLen rr₁) d₁), hv₁]
  · rw [hdisp _ (hdet (toString rounds) (saltOf saltLen rr₂) d₂), hv₂]
  · intro he
    have hd := congrArg String.data he
    simp only [String.data_append, List.append_assoc] at hd
    have e1 := List.append_cancel_left hd
    have e2 := List.append_cancel_left e1
    have e3 := List.append_cancel_left e2
    have e4 := List.append_cancel_left e3
    have e5 := List.append_cancel_left e4
    have hlen' : (saltOf saltLen rr₁).data.length = (saltOf saltLen rr₂).data.length := by
      rw [saltOf_length hlen₁, saltOf_length hlen₂]
    have e6 := congrArg (List.take (saltOf saltLen rr₁).data.length) e5
    rw [List.take_left, hlen', List.take_left] at e6
    exact hsne (String.ext e6)

/-- C5: for every crypt-class algorithm, in-range parameters, and two
random streams yielding distinct salts, each `Hash` call succeeds, `Verify`
on each produced stored hash with the same plaintext returns
`(matched=true, alg, err=nil)`, and the two stored hashes differ —
assuming the external crypt(3) library's output-format/roundtrip
contract. -/
theorem C5_crypt_roundtrip_salted (env : HashEnv) (c : DefaultHasher)
    (plain : String) (alg : HashAlgo) (rounds saltLen : Int) (rr₁ rr₂ : List Nat)
    (halg : alg = AlgoCryptMD5 ∨ alg = AlgoCryptSHA256 ∨ alg = AlgoCryptSHA512)
    (hcon : CrypterContract env.md5Crypt ∧ CrypterContract env.sha256Crypt ∧
        CrypterContract env.sha512Crypt)
    (hr : 1000 ≤ rounds ∧ rounds ≤ 1000000) (hs : 1 ≤ saltLen ∧ saltLen ≤ 16)
    (hlen₁ : saltLen.toNat ≤ rr₁.length) (hlen₂ : saltLen.toNat ≤ rr₂.length)
    (hsalt : (randomSalt saltLen rr₁).1 ≠ (randomSalt saltLen rr₂).1) :
    ∃ h₁ h₂ : String,
      (DefaultHasher.Hash env c plain alg (some rounds) (some saltLen) rr₁).1 = .ok h₁ ∧
      (DefaultHasher.Hash env c plain alg (some rounds) (some saltLen) rr₂).1 = .ok h₂ ∧
      DefaultHasher.Verify env h₁ plain = (true, alg, none) ∧
      DefaultHasher.Verify env h₂ plain = (true, alg, none) ∧
      h₁ ≠ h₂ := by
  rcases halg with h | h | h <;> subst h
  · exact crypt_roundtrip_core env c plain AlgoCryptMD5 1 env.md5Crypt rounds saltLen
      rr₁ rr₂ rfl (by decide)
      (fun h' hdet' => verify_dispatch_md5 env h' plain hdet')
      (fun tR salt d => detect_spec1 tR salt d)
      hcon.1 hr hs hlen₁ hlen₂ hsalt
  · exact crypt_roundtrip_core env c plain AlgoCryptSHA256 5 env.sha256Crypt rounds saltLen
      rr₁ rr₂ rfl (by decide)
      (fun h' hdet' => verify_dispatch_sha256 env h' plain hdet')
      (fun tR salt d => detect_spec5 tR salt d)
      hcon.2.1 hr hs hlen₁ hlen₂ hsalt
  · exact crypt_roundtrip_core env c plain AlgoCryptSHA512 6 env.sha512Crypt rounds saltLen
      rr₁ rr₂ rfl (by decide)
      (fun h' hdet' => verify_dispatch_sha512 env h' plain hdet')
      (fun tR salt d => detect_spec6 tR salt d)
      hcon.2.2 hr hs hlen₁ hlen₂ hsalt

/-! ### Raw digest detection and the whitespace asymmetry (claim C10) -/

theorem asciiLower_fix_of_hex (c : Char) (h : hexLowerChar c = true) :
    asciiLower c = c := by
  simp only [hexLowerChar, Bool.or_eq_true, Bool.and_eq_true, decide_eq_true_eq] at h
  unfold asciiLower
  rw [if_neg (by omega)]

theorem asciiLower_asciiUpper_of_hex (c : Char) (h : hexLowerChar c = true) :
    asciiLower (asciiUpper c) = c := by
  simp only [hexLowerChar, Bool.or_eq_true, Bool.and_eq_true, decide_eq_true_eq] at h
  rcases h with ⟨h1, h2⟩ | ⟨h1, h2⟩
  · have hup : asciiUpper c = c := by
      unfold asciiUpper
      rw [if_neg (by omega)]
    rw [hup]
    unfold asciiLower
    rw [if_neg (by omega)]
  · have hup : asciiUpper c = Char.ofNat (c.toNat - 32) := by
      unfold asciiUpper
      rw [if_pos (by omega)]
    have hv : (Char.ofNat (c.toNat - 32)).toNat = c.toNat - 32 :=
      char_toNat_ofNat (by omega)
    rw [hup]
    unfold asciiLower
    rw [if_pos (by rw [hv]; omega), hv]
    have he : c.toNat - 32 + 32 = c.toNat := by omega
    rw [he, Char.ofNat_toNat]

theorem map_fix_of_all (f : Char → Char) (p : Char → Bool) (l : List Char)
    (hf : ∀ c, p c = true → f c = c) (h : l.all p = true) : l.map f = l := by
  induction l with
  | nil => rfl
  | cons x xs ih =>
    simp only [List.all_cons, Bool.and_eq_true] at h
    simp [hf x h.1, ih h.2]

theorem hexDigit_hex (n : Nat) (h : n < 16) : hexLowerChar (hexDigit n) = true := by
  interval_cases n <;> decide

theorem hexEncodeL_all_hex (l : List Nat) (hb : ∀ b ∈ l, b < 256) :
    (hexEncodeL l).all hexLowerChar = true := by
  induction l with
  | nil => rfl
  | cons b bs ih =>
    have h1 : b / 16 < 16 := by have := hb b (by simp); omega
    have h2 : b % 16 < 16 := Nat.mod_lt _ (by omega)
    simp [hexEncodeL, hexDigit_hex _ h1, hexDigit_hex _ h2,
      ih (fun x hx => hb x (by simp [hx]))]

theorem hexEncodeL_length (l : List Nat) : (hexEncodeL l).length = 2 * l.length := by
  induction l with
  | nil => rfl
  | cons b bs ih => simp [hexEncodeL, ih]; omega

theorem hexLowerChar_not_space (c : Char) (h : hexLowerChar c = true) :
    goIsSpace c = false := by
  simp only [hexLowerChar, Bool.or_eq_true, Bool.and_eq_true, decide_eq_true_eq] at h
  have hns : goIsSpace c ≠ true := by
    intro hsp
    simp only [goIsSpace, Bool.or_eq_true, Bool.and_eq_true, decide_eq_true_eq] at hsp
    omega
  cases hgo : goIsSpace c
  · rfl
  · exact absurd hgo hns

theorem dropWhile_append_of_all (p : Char → Bool) (a b : List Char)
    (h : ∀ c ∈ a, p c = true) :
    List.dropWhile p (a ++ b) = List.dropWhile p b := by
  induction a with
  | nil => rfl
  | cons x xs ih =>
    rw [List.cons_append, List.dropWhile_cons_of_pos (h x (by simp))]
    exact ih (fun c hc => h c (by simp [hc]))

/-- Trimming a string that is whitespace, then a whitespace-free nonempty
core, then whitespace, yields exactly the core. -/
theorem goTrimList_sandwich (ws₁ d ws₂ : List Char)
    (h1 : ∀ c ∈ ws₁, goIsSpace c = true) (h2 : ∀ c ∈ ws₂, goIsSpace c = true)
    (hd : d ≠ []) (hds : ∀ c ∈ d, goIsSpace c = false) :
    goTrimList (ws₁ ++ (d ++ ws₂)) = d := by
  unfold goTrimList
  rw [dropWhile_append_of_all _ _ _ h1]
  obtain ⟨c, cs, rfl⟩ : ∃ c cs, d = c :: cs := by
    cases d with
    | nil => exact absurd rfl hd
    | cons c cs => exact ⟨c, cs, rfl⟩
  rw [List.cons_append, List.dropWhile_cons_of_neg (by simp [hds c (by simp)]),
    ← List.cons_append, List.reverse_append,
    dropWhile_append_of_all _ _ _ (by intro x hx; exact h2 x (by simpa using hx))]
  have hrev : (c :: cs).reverse ≠ [] := by simp
  have : List.dropWhile goIsSpace (c :: cs).reverse = (c :: cs).reverse := by
    cases hrc : (c :: cs).reverse with
    | nil => exact absurd hrc hrev
    | cons e es =>
      have he : e ∈ (c :: cs) := List.mem_reverse.mp (by rw [hrc]; simp)
      rw [List.dropWhile_cons_of_neg (by simp [hds e he])]
  rw [this, List.reverse_reverse]

theorem goToLower_length (s : String) : (goToLower s).length = s.length := by
  show (s.data.map asciiLower).length = s.data.length
  simp

/-- A string whose lowercasing after trimming is all lowercase hex cannot
carry a crypt(3) `$k$` marker. -/
theorem no_dollar_marker (t : String) (a : Char)
    (ht : (goToLower t).data.all hexLowerChar = true) :
    goHasPre t ("$" ++ ⟨[a]⟩ ++ "$") = false := by
  by_contra hcon
  have h : goHasPre t ("$" ++ ⟨[a]⟩ ++ "$") = true := by
    cases hx : goHasPre t ("$" ++ ⟨[a]⟩ ++ "$")
    · exact absurd hx hcon
    · rfl
  have hp : ("$" ++ ⟨[a]⟩ ++ "$" : String).data <+: t.data := by
    simpa [goHasPre, List.isPrefixOf_iff_prefix] using h
  obtain ⟨r, hr⟩ : ∃ r, t.data = '$' :: a :: '$' :: r := by
    obtain ⟨r, hr⟩ := hp
    refine ⟨r, ?_⟩
    rw [← hr]
    simp [String.data_append]
  rw [show goToLower t = ⟨t.data.map asciiLower⟩ from rfl, hr] at ht
  simp only [List.map_cons, List.all_cons, Bool.and_eq_true] at ht
  have : asciiLower '$' = '$' := by decide
  rw [this] at ht
  exact absurd ht.1 (by decide)

/-- Detection of any string whose trimmed form lowercases to `n` hex
characters, `n` one of the four raw digest lengths. -/
theorem detect_hexlen (s : String) (n : Nat)
    (hn : n = 32 ∨ n = 40 ∨ n = 64 ∨ n = 128)
    (ht : (goToLower (goTrim s)).data.all hexLowerChar = true)
    (hlen : (goTrim s).length = n) :
    DetectHashAlgo s = (rawAlgoOfLen n, none) := by
  have h6 := no_dollar_marker (goTrim s) '6' ht
  have h5 := no_dollar_marker (goTrim s) '5' ht
  have h1 := no_dollar_marker (goTrim s) '1' ht
  have hd6 : goHasPre (goTrim s) "$6$" = false := by
    have he : ("$" ++ ⟨['6']⟩ ++ "$" : String) = "$6$" := by decide
    rwa [he] at h6
  have hd5 : goHasPre (goTrim s) "$5$" = false := by
    have he : ("$" ++ ⟨['5']⟩ ++ "$" : String) = "$5$" := by decide
    rwa [he] at h5
  have hd1 : goHasPre (goTrim s) "$1$" = false := by
    have he : ("$" ++ ⟨['1']⟩ ++ "$" : String) = "$1$" := by decide
    rwa [he] at h1
  have hll : (goToLower (goTrim s)).length = n := by rw [goToLower_length, hlen]
  unfold DetectHashAlgo
  rcases hn with rfl | rfl | rfl | rfl <;>
    simp [hd6, hd5, hd1, isHexLen, hll, ht, rawAlgoOfLen]

/-! ### Verify's dispatch on raw-class detection results -/

theorem verify_dispatch_rawmd5 (env : HashEnv) (hashed plain : String)
    (hdet : DetectHashAlgo hashed = (AlgoRawMD5, none)) :
    DefaultHasher.Verify env hashed plain =
      (stringsEq (goToLower hashed) (hexEncode (env.md5Sum plain)), AlgoRawMD5, none) := by
  unfold DefaultHasher.Verify
  rw [hdet]
  simp [AlgoCryptSHA512, AlgoCryptSHA256, AlgoCryptMD5, AlgoRawMD5]

theorem verify_dispatch_rawsha1 (env : HashEnv) (hashed plain : String)
    (hdet : DetectHashAlgo hashed = (AlgoRawSHA1, none)) :
    DefaultHasher.Verify env hashed plain =
      (stringsEq (goToLower hashed) (hexEncode (env.sha1Sum plain)), AlgoRawSHA1, none) := by
  unfold DefaultHasher.Verify
  rw [hdet]
  simp [AlgoCryptSHA512, AlgoCryptSHA256, AlgoCryptMD5, AlgoRawMD5, AlgoRawSHA1]

theorem verify_dispatch_rawsha256 (env : HashEnv) (hashed plain : String)
    (hdet : DetectHashAlgo hashed = (AlgoRawSHA256, none)) :
    DefaultHasher.Verify env hashed plain =
      (stringsEq (goToLower hashed) (hexEncode (env.sha256Sum plain)), AlgoRawSHA256, none) := by
  unfold DefaultHasher.Verify
  rw [hdet]
  simp [AlgoCryptSHA512, AlgoCryptSHA256, AlgoCryptMD5, AlgoRawMD5, AlgoRawSHA1,
    AlgoRawSHA256]

theorem verify_dispatch_rawsha512 (env : HashEnv) (hashed plain : String)
    (hdet : DetectHashAlgo hashed = (AlgoRawSHA512, none)) :
    DefaultHasher.Verify env hashed plain =
      (stringsEq (goToLower hashed) (hexEncode (env.sha512Sum plain)), AlgoRawSHA512, none) := by
  unfold DefaultHasher.Verify
  rw [hdet]
  simp [AlgoCryptSHA512, AlgoCryptSHA256, AlgoCryptMD5, AlgoRawMD5, AlgoRawSHA1,
    AlgoRawSHA256, AlgoRawSHA512]

theorem stringsEq_false_of_len {a b : String} (h : a.length ≠ b.length) :
    stringsEq a b = false := by
  simp [stringsEq, h]

theorem stringsEq_self (a : String) : stringsEq a a = true := by
  simp [stringsEq]

theorem upper_hex_not_space (c : Char) (h : hexLowerChar c = true) :
    goIsSpace (asciiUpper c) = false := by
  have h' := h
  simp only [hexLowerChar, Bool.or_eq_true, Bool.and_eq_true, decide_eq_true_eq] at h'
  rcases h' with ⟨h1, h2⟩ | ⟨h1, h2⟩
  · have hup : asciiUpper c = c := by
      unfold asciiUpper
      rw [if_neg (by omega)]
    rw [hup]
    exact hexLowerChar_not_space c h
  · have hup : asciiUpper c = Char.ofNat (c.toNat - 32) := by
      unfold asciiUpper
      rw [if_pos (by omega)]
    have hv : (Char.ofNat (c.toNat - 32)).toNat = c.toNat - 32 :=
      char_toNat_ofNat (by omega)
    rw [hup]
    have hns : goIsSpace (Char.ofNat (c.toNat - 32)) ≠ true := by
      intro hsp
      simp only [goIsSpace, Bool.or_eq_true, Bool.and_eq_true, decide_eq_true_eq, hv] at hsp
      omega
    cases hgo : goIsSpace (Char.ofNat (c.toNat - 32))
    · rfl
    · exact absurd hgo hns

/-- Core of claim C10 for one raw algorithm: the correct digest wrapped in
whitespace is classified (trimmed) but fails the untrimmed comparison,
while the case-altered digest without whitespace succeeds. -/
theorem raw_ws_core (env : HashEnv) (plain ws₁ ws₂ : String) (alg : HashAlgo)
    (digestFn : String → List Nat) (n : Nat)
    (hn2 : 2 * n = 32 ∨ 2 * n = 40 ∨ 2 * n = 64 ∨ 2 * n = 128)
    (halg2 : rawAlgoOfLen (2 * n) = alg)
    (hdisp : ∀ hsh : String, DetectHashAlgo hsh = (alg, none) →
        DefaultHasher.Verify env hsh plain =
          (stringsEq (goToLower hsh) (hexEncode (digestFn plain)), alg, none))
    (hdlen : (digestFn plain).length = n)
    (hbytes : ∀ b ∈ digestFn plain, b < 256)
    (hws1 : ∀ c ∈ ws₁.data, goIsSpace c = true)
    (hws2 : ∀ c ∈ ws₂.data, goIsSpace c = true)
    (hne : ws₁.data ≠ [] ∨ ws₂.data ≠ []) :
    DefaultHasher.Verify env (ws₁ ++ hexEncode (digestFn plain) ++ ws₂) plain
        = (false, alg, none) ∧
    DefaultHasher.Verify env (goToUpper (hexEncode (digestFn plain))) plain
        = (true, alg, none) := by
  have hall : (hexEncodeL (digestFn plain)).all hexLowerChar = true :=
    hexEncodeL_all_hex _ hbytes
  have hall' := List.all_eq_true.mp hall
  have hdl : (hexEncodeL (digestFn plain)).length = 2 * n := by
    rw [hexEncodeL_length, hdlen]
  have hdne : hexEncodeL (digestFn plain) ≠ [] := by
    intro hnil
    rw [hnil] at hdl
    simp at hdl
    omega
  have hds : ∀ c ∈ hexEncodeL (digestFn plain), goIsSpace c = false :=
    fun c hc => hexLowerChar_not_space c (hall' c hc)
  have hfix : goToLower (hexEncode (digestFn plain)) = hexEncode (digestFn plain) := by
    apply String.ext
    show (hexEncodeL (digestFn plain)).map asciiLower = hexEncodeL (digestFn plain)
    exact map_fix_of_all _ _ _ asciiLower_fix_of_hex hall
  constructor
  · have htrim : goTrim (ws₁ ++ hexEncode (digestFn plain) ++ ws₂)
        = hexEncode (digestFn plain) := by
      apply String.ext
      show goTrimList ((ws₁ ++ hexEncode (digestFn plain) ++ ws₂)).data
          = (hexEncode (digestFn plain)).data
      rw [String.data_append, String.data_append, List.append_assoc]
      exact goTrimList_sandwich _ _ _ hws1 hws2 hdne hds
    have hdet : DetectHashAlgo (ws₁ ++ hexEncode (digestFn plain) ++ ws₂) = (alg, none) := by
      rw [← halg2]
      apply detect_hexlen _ (2 * n) hn2
      · rw [htrim, hfix]
        exact hall
      · rw [htrim]
        show (hexEncodeL (digestFn plain)).length = 2 * n
        exact hdl
    rw [hdisp _ hdet]
    have hlne : (goToLower (ws₁ ++ hexEncode (digestFn plain) ++ ws₂)).length ≠
        (hexEncode (digestFn plain)).length := by
      rw [goToLower_length]
      show ((ws₁ ++ hexEncode (digestFn plain) ++ ws₂)).data.length ≠
        (hexEncodeL (digestFn plain)).length
      rw [String.data_append, String.data_append]
      simp only [List.length_append]
      have hw : 0 < ws₁.data.length ∨ 0 < ws₂.data.length := by
        rcases hne with h | h
        · exact Or.inl (List.length_pos.mpr h)
        · exact Or.inr (List.length_pos.mpr h)
      show ws₁.data.length + (hexEncodeL (digestFn plain)).length + ws₂.data.length ≠
        (hexEncodeL (digestFn plain)).length
      omega
    rw [stringsEq_false_of_len hlne]
  · have hds2 : ∀ c ∈ (goToUpper (hexEncode (digestFn plain))).data, goIsSpace c = false := by
      intro c hc
      show goIsSpace c = false
      have : c ∈ (hexEncodeL (digestFn plain)).map asciiUpper := hc
      obtain ⟨c', hc', rfl⟩ := List.mem_map.mp this
      exact upper_hex_not_space c' (hall' c' hc')
    have hne2 : (goToUpper (hexEncode (digestFn plain))).data ≠ [] := by
      show (hexEncodeL (digestFn plain)).map asciiUpper ≠ []
      simp [hdne]
    have htrim2 : goTrim (goToUpper (hexEncode (digestFn plain)))
        = goToUpper (hexEncode (digestFn plain)) := by
      apply String.ext
      show goTrimList ((goToUpper (hexEncode (digestFn plain))).data)
          = (goToUpper (hexEncode (digestFn plain))).data
      have hs := goTrimList_sandwich [] ((goToUpper (hexEncode (digestFn plain))).data) []
        (by simp) (by simp) hne2 hds2
      simpa using hs
    have hlow2 : goToLower (goToUpper (hexEncode (digestFn plain)))
        = hexEncode (digestFn plain) := by
      apply String.ext
      show ((hexEncodeL (digestFn plain)).map asciiUpper).map asciiLower
          = hexEncodeL (digestFn plain)
      rw [List.map_map]
      exact map_fix_of_all _ _ _
        (fun c hc => asciiLower_asciiUpper_of_hex c hc) hall
    have hdet2 : DetectHashAlgo (goToUpper (hexEncode (digestFn plain))) = (alg, none) := by
      rw [← halg2]
      apply detect_hexlen _ (2 * n) hn2
      · rw [htrim2, hlow2]
        exact hall
      · rw [htrim2]
        show ((hexEncodeL (digestFn plain)).map asciiUpper).length = 2 * n
        rw [List.length_map]
        exact hdl
    rw [hdisp _ hdet2, hlow2, stringsEq_self]

/-- C10: for every raw-class algorithm and plaintext, surrounding the
correct lowercase hex digest with whitespace yields a stored value that
`Verify` classifies as that algorithm with `err = nil` but reports
`matched = false` (classification trims, the constant-time comparison does
not), while the uppercase spelling of the digest with no whitespace yields
`matched = true`. -/
theorem C10_whitespace_detect_compare_asymmetry (env : HashEnv)
    (plain ws₁ ws₂ : String) (alg : HashAlgo) (digestFn : String → List Nat)
    (n : Nat)
    (halg : (alg = AlgoRawMD5 ∧ digestFn = env.md5Sum ∧ n = 16) ∨
            (alg = AlgoRawSHA1 ∧ digestFn = env.sha1Sum ∧ n = 20) ∨
            (alg = AlgoRawSHA256 ∧ digestFn = env.sha256Sum ∧ n = 32) ∨
            (alg = AlgoRawSHA512 ∧ digestFn = env.sha512Sum ∧ n = 64))
    (hdlen : (digestFn plain).length = n)
    (hbytes : ∀ b ∈ digestFn plain, b < 256)
    (hws1 : ∀ c ∈ ws₁.data, goIsSpace c = true)
    (hws2 : ∀ c ∈ ws₂.data, goIsSpace c = true)
    (hne : ws₁.data ≠ [] ∨ ws₂.data ≠ []) :
    DefaultHasher.Verify env (ws₁ ++ hexEncode (digestFn plain) ++ ws₂) plain
        = (false, alg, none) ∧
    DefaultHasher.Verify env (goToUpper (hexEncode (digestFn plain))) plain
        = (true, alg, none) := by
  rcases halg with ⟨rfl, rfl, rfl⟩ | ⟨rfl, rfl, rfl⟩ | ⟨rfl, rfl, rfl⟩ | ⟨rfl, rfl, rfl⟩
  · exact raw_ws_core env plain ws₁ ws₂ AlgoRawMD5 env.md5Sum 16 (by decide) (by decide)
      (fun hsh hd => verify_dispatch_rawmd5 env hsh plain hd)
      hdlen hbytes hws1 hws2 hne
  · exact raw_ws_core env plain ws₁ ws₂ AlgoRawSHA1 env.sha1Sum 20 (by decide) (by decide)
      (fun hsh hd => verify_dispatch_rawsha1 env hsh plain hd)
      hdlen hbytes hws1 hws2 hne
  · exact raw_ws_core env plain ws₁ ws₂ AlgoRawSHA256 env.sha256Sum 32 (by decide) (by decide)
      (fun hsh hd => verify_dispatch_rawsha256 env hsh plain hd)
      hdlen hbytes hws1 hws2 hne
  · exact raw_ws_core env plain ws₁ ws₂ AlgoRawSHA512 env.sha512Sum 64 (by decide) (by decide)
      (fun hsh hd => verify_dispatch_rawsha512 env hsh plain hd)
      hdlen hbytes hws1 hws2 hne

/-! ### Prefix, fold, and hex roundtrip lemmas -/

theorem goHasPre_append (p x : String) : goHasPre (p ++ x) p = true := by
  simp [goHasPre, String.data_append, List.isPrefixOf_iff_prefix]

theorem goTrimPre_append (p x : String) : goTrimPre (p ++ x) p = x := by
  unfold goTrimPre
  rw [if_pos (goHasPre_append p x)]
  apply String.ext
  show ((p ++ x).data).drop p.data.length = x.data
  rw [String.data_append]
  exact List.drop_left _ _

theorem goEqFold_refl (a : String) : goEqFold a a = true := by
  simp [goEqFold]

theorem append_ne_empty (p x : String) (hp : p.data ≠ []) : p ++ x ≠ "" := by
  intro h
  have hd := congrArg String.data h
  rw [String.data_append] at hd
  have : p.data = [] := by
    cases hpd : p.data with
    | nil => rfl
    | cons c cs => rw [hpd] at hd; simp at hd
  exact hp this

theorem hexDigitVal_hexDigit (n : Nat) (h : n < 16) :
    hexDigitVal (hexDigit n) = some n := by
  interval_cases n <;> decide

theorem hexDecodeL_encodeL (l : List Nat) (h : ∀ b ∈ l, b < 256) :
    hexDecodeL (hexEncodeL l) = some l := by
  induction l with
  | nil => rfl
  | cons b bs ih =>
    have h1 : b / 16 < 16 := by have := h b (by simp); omega
    have h2 : b % 16 < 16 := Nat.mod_lt _ (by omega)
    show hexDecodeL (hexDigit (b / 16) :: hexDigit (b % 16) :: hexEncodeL bs)
        = some (b :: bs)
    simp [hexDecodeL, hexDigitVal_hexDigit _ h1, hexDigitVal_hexDigit _ h2,
      ih (fun x hx => h x (by simp [hx]))]
    omega

theorem hexDecode_hexEncode (l : List Nat) (h : ∀ b ∈ l, b < 256) :
    hexDecode (hexEncode l) = some l :=
  hexDecodeL_encodeL l h

/-! ### Claim C9 — Bearer verification is exact string equality -/

/-- C9: with a known non-empty key id and `Authorization = "Bearer " ++
token`, `BearerAuthenticator.Verify` succeeds exactly when the presented
token equals the stored secret hex character-for-character (so any altered
spelling, including case changes, fails); removing either header or
presenting an unknown key id fails. -/
theorem C9_bearer_exact_equality (s : BearerAuthenticator) (r : AuthRequest)
    (token secretHex k' : String)
    (hk : r.apiKey ≠ "")
    (hsec : lookupKey s.accessSecrets r.apiKey = some secretHex)
    (ha : r.authz = "Bearer " ++ token)
    (hk'ne : k' ≠ "")
    (hk' : lookupKey s.accessSecrets k' = none) :
    (BearerAuthenticator.Verify s r = none ↔ token = secretHex) ∧
    BearerAuthenticator.Verify s { r with apiKey := "" } = some "missing auth headers" ∧
    BearerAuthenticator.Verify s { r with authz := "" } = some "missing auth headers" ∧
    BearerAuthenticator.Verify s { r with apiKey := k' } = some "unknown api key" := by
  have hane : r.authz ≠ "" := by
    rw [ha]
    exact append_ne_empty _ _ (by decide)
  refine ⟨?_, ?_, ?_, ?_⟩
  · unfold BearerAuthenticator.Verify
    rw [if_neg (by push_neg; exact ⟨hk, hane⟩), hsec]
    show (if goHasPre r.authz "Bearer " = false then some "invalid auth scheme"
      else if goTrimPre r.authz "Bearer " ≠ secretHex then some "not verified"
      else none) = none ↔ token = secretHex
    rw [ha, goHasPre_append, goTrimPre_append]
    by_cases ht : token = secretHex
    · simp [ht]
    · simp [ht]
  · unfold BearerAuthenticator.Verify
    rw [if_pos (by left; rfl)]
  · unfold BearerAuthenticator.Verify
    rw [if_pos (by right; rfl)]
  · unfold BearerAuthenticator.Verify
    rw [if_neg (by push_neg; exact ⟨hk'ne, hane⟩), hk']

theorem C9_witness :
    BearerAuthenticator.Verify someBearer bearerReq = none ∧
    BearerAuthenticator.Verify someBearer { bearerReq with apiKey := "nope" }
      = some "unknown api key" := by
  have h := C9_bearer_exact_equality someBearer bearerReq "aabb" "aabb" "nope"
    (by decide) rfl rfl (by decide) rfl
  exact ⟨h.1.mpr rfl, h.2.2.2⟩

/-! ### Claim C8 — dispatcher routing -/

theorem firstSupporting_eq_none_iff (l : List (String × PortsAuthenticator))
    (r : AuthRequest) :
    firstSupporting l r = none ↔ ∀ a ∈ l, a.2.supports r = false := by
  induction l with
  | nil => simp [firstSupporting]
  | cons a rest ih =>
    by_cases hs : a.2.supports r = true
    · simp [firstSupporting, hs]
    · rw [show firstSupporting (a :: rest) r = firstSupporting rest r by
        rw [firstSupporting, if_neg hs], ih]
      constructor
      · intro h b hb
        rcases List.mem_cons.mp hb with rfl | hb
        · simpa using hs
        · exact h b hb
      · intro h b hb
        exact h b (List.mem_cons.mpr (Or.inr hb))

theorem firstSupporting_mem (l : List (String × PortsAuthenticator))
    (r : AuthRequest) (p : PortsAuthenticator)
    (h : firstSupporting l r = some p) :
    ∃ a ∈ l, a.2 = p ∧ a.2.supports r = true := by
  induction l with
  | nil => simp [firstSupporting] at h
  | cons a rest ih =>
    by_cases hs : a.2.supports r = true
    · rw [firstSupporting, if_pos hs] at h
      exact ⟨a, by simp, Option.some.inj h, hs⟩
    · rw [firstSupporting, if_neg hs] at h
      obtain ⟨b, hb, hbp, hbs⟩ := ih h
      exact ⟨b, by simp [hb], hbp, hbs⟩

/-- C8: the dispatcher's `Supports` is true iff some held authenticator
supports the request; `Verify` fails with the distinct missing-header
error on an empty `Authorization`, otherwise returns some supporting
authenticator's verdict unchanged when one exists, and fails with the
scheme-not-supported error when none does. -/
theorem C8_multi_dispatch (s : MultiAuthenticator) (r : AuthRequest) :
    (MultiAuthenticator.Supports s r = true ↔
        ∃ a ∈ s.authenticators, a.2.supports r = true) ∧
    (r.authz = "" →
        MultiAuthenticator.Verify s r = some "missing 'Authorization' header") ∧
    (r.authz ≠ "" → (∃ a ∈ s.authenticators, a.2.supports r = true) →
        ∃ a ∈ s.authenticators, a.2.supports r = true ∧
          MultiAuthenticator.Verify s r = a.2.verify r) ∧
    (r.authz ≠ "" → (∀ a ∈ s.authenticators, a.2.supports r = false) →
        MultiAuthenticator.Verify s r = some "authorization scheme not supported") := by
  refine ⟨?_, ?_, ?_, ?_⟩
  · unfold MultiAuthenticator.Supports
    rw [List.any_eq_true]
  · intro h
    unfold MultiAuthenticator.Verify
    rw [if_pos h]
  · intro hne hex
    unfold MultiAuthenticator.Verify
    rw [if_neg hne]
    cases hfs : firstSupporting s.authenticators r with
    | none =>
      rw [firstSupporting_eq_none_iff] at hfs
      obtain ⟨a, ha, hsup⟩ := hex
      rw [hfs a ha] at hsup
      exact absurd hsup (by simp)
    | some p =>
      obtain ⟨a, ha, hap, hsup⟩ := firstSupporting_mem _ _ _ hfs
      exact ⟨a, ha, hsup, by rw [hap]⟩
  · intro hne hall
    unfold MultiAuthenticator.Verify
    rw [if_neg hne, (firstSupporting_eq_none_iff _ _).mpr hall]

theorem C8_witness :
    MultiAuthenticator.Supports trivMulti bearerReq = true ∧
    MultiAuthenticator.Verify trivMulti { bearerReq with authz := "" }
      = some "missing 'Authorization' header" := by
  have h1 := C8_multi_dispatch trivMulti bearerReq
  have h2 := C8_multi_dispatch trivMulti { bearerReq with authz := "" }
  exact ⟨h1.1.mpr ⟨("bearer", trivAuth), by simp [trivMulti], by decide⟩,
    h2.2.1 rfl⟩

/-! ### HMAC verification path lemmas -/

/-- A request that passes every check before the signature comparison
reduces `Verify` to the constant-time signature comparison itself. -/
theorem hmac_verify_sig_case (env : CryptoEnv) (s : HMACAuthenticator)
    (now ts : Int) (r : AuthRequest) (secret mac₀ : List Nat)
    (hk : r.apiKey ≠ "")
    (hsec : lookupKey s.accessSecrets r.apiKey = some secret)
    (hts : r.tsStr ≠ "")
    (hparse : env.parseRFC3339 r.tsStr = some ts)
    (hwin1 : now - ts ≤ s.window) (hwin2 : -s.window ≤ now - ts)
    (hbodyne : r.bodySHA ≠ "")
    (hbodyok : goEqFold r.bodySHA (hexEncode (env.sha256Bytes r.body)) = true)
    (hmacb : ∀ b ∈ mac₀, b < 256)
    (hauth : r.authz = "HMAC " ++ hexEncode mac₀) :
    HMACAuthenticator.Verify env s now r =
      (if mac₀ = env.hmacSha256 secret
          (canonicalString r (hexEncode (env.sha256Bytes r.body)))
        then none else some "bad signature") := by
  have hane : r.authz ≠ "" := by
    rw [hauth]
    exact append_ne_empty _ _ (by decide)
  unfold HMACAuthenticator.Verify
  rw [if_neg (by push_neg; exact ⟨hk, hane, hts, hbodyne⟩), hsec]
  dsimp only
  rw [hauth, goHasPre_append, if_neg (by simp), goTrimPre_append, hparse]
  dsimp only
  rw [if_neg (by omega), hbodyok, if_neg (by simp), hexDecode_hexEncode _ hmacb]

theorem hmac_verify_parse_fail (env : CryptoEnv) (s : HMACAuthenticator)
    (now : Int) (r : AuthRequest) (secret : List Nat)
    (hk : r.apiKey ≠ "") (hane : r.authz ≠ "") (hts : r.tsStr ≠ "")
    (hbodyne : r.bodySHA ≠ "")
    (hsec : lookupKey s.accessSecrets r.apiKey = some secret)
    (hpre : goHasPre r.authz "HMAC " = true)
    (hparse : env.parseRFC3339 r.tsStr = none) :
    HMACAuthenticator.Verify env s now r = some "bad timestamp" := by
  unfold HMACAuthenticator.Verify
  rw [if_neg (by push_neg; exact ⟨hk, hane, hts, hbodyne⟩), hsec]
  dsimp only
  rw [if_neg (by simp [hpre]), hparse]

theorem hmac_verify_window_fail (env : CryptoEnv) (s : HMACAuthenticator)
    (now ts : Int) (r : AuthRequest) (secret : List Nat)
    (hk : r.apiKey ≠ "") (hane : r.authz ≠ "") (hts : r.tsStr ≠ "")
    (hbodyne : r.bodySHA ≠ "")
    (hsec : lookupKey s.accessSecrets r.apiKey = some secret)
    (hpre : goHasPre r.authz "HMAC " = true)
    (hparse : env.parseRFC3339 r.tsStr = some ts)
    (hout : now - ts > s.window ∨ now - ts < -s.window) :
    HMACAuthenticator.Verify env s now r
      = some "timestamp outside allowed window" := by
  unfold HMACAuthenticator.Verify
  rw [if_neg (by push_neg; exact ⟨hk, hane, hts, hbodyne⟩), hsec]
  dsimp only
  rw [if_neg (by simp [hpre]), hparse]
  dsimp only
  rw [if_pos hout]

theorem hmac_verify_body_mismatch (env : CryptoEnv) (s : HMACAuthenticator)
    (now ts : Int) (r : AuthRequest) (secret : List Nat)
    (hk : r.apiKey ≠ "") (hane : r.authz ≠ "") (hts : r.tsStr ≠ "")
    (hbodyne : r.bodySHA ≠ "")
    (hsec : lookupKey s.accessSecrets r.apiKey = some secret)
    (hpre : goHasPre r.authz "HMAC " = true)
    (hparse : env.parseRFC3339 r.tsStr = some ts)
    (hwin1 : now - ts ≤ s.window) (hwin2 : -s.window ≤ now - ts)
    (hbm : goEqFold r.bodySHA (hexEncode (env.sha256Bytes r.body)) = false) :
    HMACAuthenticator.Verify env s now r = some "body hash mismatch" := by
  unfold HMACAuthenticator.Verify
  rw [if_neg (by push_neg; exact ⟨hk, hane, hts, hbodyne⟩), hsec]
  dsimp only
  rw [if_neg (by simp [hpre]), hparse]
  dsimp only
  rw [if_neg (by omega), hbm, if_pos rfl]

/-! ### Claim C1 — HMAC acceptance of valid requests, rejection of tampering -/

/-- C1: a request carrying a known key id, a correctly signed
`Authorization: HMAC <hex>` over the canonical string, an in-window
RFC3339 timestamp, and a body-hash header equal to the body's SHA-256 hex
digest passes `Verify`; and changing (after signing) the method, the
escaped path/query, the timestamp string, or the body makes `Verify`
fail — the first two and the in-window timestamp change under the
assumption that the changed canonical string does not collide under
HMAC-SHA256, the body change under the assumption that the new body's
digest differs from the declared one. -/
theorem C1_hmac_valid_accepts_tamper_rejects (env : CryptoEnv)
    (s : HMACAuthenticator) (now ts : Int) (r : AuthRequest)
    (secret : List Nat) (method' path' query' tsStr' : String) (body' : List Nat)
    (hk : r.apiKey ≠ "")
    (hsec : lookupKey s.accessSecrets r.apiKey = some secret)
    (hts : r.tsStr ≠ "")
    (hparse : env.parseRFC3339 r.tsStr = some ts)
    (hwin1 : now - ts ≤ s.window) (hwin2 : -s.window ≤ now - ts)
    (hbody : r.bodySHA = hexEncode (env.sha256Bytes r.body))
    (hbodyne : r.bodySHA ≠ "")
    (hmacb : ∀ b ∈ env.hmacSha256 secret
        (canonicalString r (hexEncode (env.sha256Bytes r.body))), b < 256)
    (hauth : r.authz = "HMAC " ++ hexEncode (env.hmacSha256 secret
        (canonicalString r (hexEncode (env.sha256Bytes r.body)))))
    (hm : env.hmacSha256 secret (canonicalString { r with method := method' }
          (hexEncode (env.sha256Bytes r.body))) ≠
        env.hmacSha256 secret (canonicalString r (hexEncode (env.sha256Bytes r.body))))
    (hpq : env.hmacSha256 secret (canonicalString
          { r with escapedPath := path', rawQuery := query' }
          (hexEncode (env.sha256Bytes r.body))) ≠
        env.hmacSha256 secret (canonicalString r (hexEncode (env.sha256Bytes r.body))))
    (hts' : ∀ t : Int, env.parseRFC3339 tsStr' = some t →
        now - t ≤ s.window → -s.window ≤ now - t →
        env.hmacSha256 secret (canonicalString { r with tsStr := tsStr' }
            (hexEncode (env.sha256Bytes r.body))) ≠
          env.hmacSha256 secret (canonicalString r (hexEncode (env.sha256Bytes r.body))))
    (hb : goEqFold r.bodySHA (hexEncode (env.sha256Bytes body')) = false) :
    HMACAuthenticator.Verify env s now r = none ∧
    HMACAuthenticator.Verify env s now { r with method := method' }
        = some "bad signature" ∧
    HMACAuthenticator.Verify env s now { r with escapedPath := path', rawQuery := query' }
        = some "bad signature" ∧
    HMACAuthenticator.Verify env s now { r with tsStr := tsStr' } ≠ none ∧
    HMACAuthenticator.Verify env s now { r with body := body' }
        = some "body hash mismatch" := by
  have hbodyok : goEqFold r.bodySHA (hexEncode (env.sha256Bytes r.body)) = true := by
    rw [hbody]
    exact goEqFold_refl _
  have hane : r.authz ≠ "" := by
    rw [hauth]
    exact append_ne_empty _ _ (by decide)
  have hpre : goHasPre r.authz "HMAC " = true := by
    rw [hauth]
    exact goHasPre_append _ _
  refine ⟨?_, ?_, ?_, ?_, ?_⟩
  · rw [hmac_verify_sig_case env s now ts r secret _ hk hsec hts hparse hwin1 hwin2
      hbodyne hbodyok hmacb hauth, if_pos rfl]
  · rw [hmac_verify_sig_case env s now ts { r with method := method' } secret _ hk hsec
      hts hparse hwin1 hwin2 hbodyne hbodyok hmacb hauth,
      if_neg (fun hEq => hm hEq.symm)]
  · rw [hmac_verify_sig_case env s now ts
      { r with escapedPath := path', rawQuery := query' } secret _ hk hsec
      hts hparse hwin1 hwin2 hbodyne hbodyok hmacb hauth,
      if_neg (fun hEq => hpq hEq.symm)]
  · by_cases hts0 : tsStr' = ""
    · rw [show HMACAuthenticator.Verify env s now { r with tsStr := tsStr' }
          = some "missing auth headers" by
        unfold HMACAuthenticator.Verify
        rw [if_pos (by right; right; left; exact hts0)]]
      simp
    · cases hpt : env.parseRFC3339 tsStr' with
      | none =>
        rw [hmac_verify_parse_fail env s now { r with tsStr := tsStr' } secret hk hane
          hts0 hbodyne hsec hpre hpt]
        simp
      | some t =>
        by_cases hw : now - t > s.window ∨ now - t < -s.window
        · rw [hmac_verify_window_fail env s now t { r with tsStr := tsStr' } secret hk
            hane hts0 hbodyne hsec hpre hpt hw]
          simp
        · push_neg at hw
          rw [hmac_verify_sig_case env s now t { r with tsStr := tsStr' } secret _ hk
            hsec hts0 hpt hw.1 hw.2 hbodyne hbodyok hmacb hauth,
            if_neg (fun hEq => hts' t hpt hw.1 hw.2 hEq.symm)]
          simp
  · exact hmac_verify_body_mismatch env s now ts { r with body := body' } secret hk
      hane hts hbodyne hsec hpre hparse hwin1 hwin2 hb

/-! ### Claim C4 — symmetric, boundary-inclusive timestamp window -/

theorem newHMACWindow_pos (ws : Int) : 0 < newHMACWindow ws := by
  unfold newHMACWindow
  split_ifs with h <;> omega

/-- C4: for an otherwise valid signed request whose authenticator holds the
window produced by the constructor (always positive), a verification-time
skew of exactly the window in either direction is accepted, and any skew
strictly beyond the window in either direction fails with the
timestamp-outside-window error. -/
theorem C4_window_symmetric_inclusive (env : CryptoEnv)
    (s : HMACAuthenticator) (ws ts now₁ now₂ : Int) (r : AuthRequest)
    (secret : List Nat)
    (hwcfg : s.window = newHMACWindow ws)
    (hk : r.apiKey ≠ "")
    (hsec : lookupKey s.accessSecrets r.apiKey = some secret)
    (hts : r.tsStr ≠ "")
    (hparse : env.parseRFC3339 r.tsStr = some ts)
    (hbody : r.bodySHA = hexEncode (env.sha256Bytes r.body))
    (hbodyne : r.bodySHA ≠ "")
    (hmacb : ∀ b ∈ env.hmacSha256 secret
        (canonicalString r (hexEncode (env.sha256Bytes r.body))), b < 256)
    (hauth : r.authz = "HMAC " ++ hexEncode (env.hmacSha256 secret
        (canonicalString r (hexEncode (env.sha256Bytes r.body)))))
    (hn₁ : now₁ - ts > s.window) (hn₂ : now₂ - ts < -s.window) :
    HMACAuthenticator.Verify env s (ts + s.window) r = none ∧
    HMACAuthenticator.Verify env s (ts - s.window) r = none ∧
    HMACAuthenticator.Verify env s now₁ r
        = some "timestamp outside allowed window" ∧
    HMACAuthenticator.Verify env s now₂ r
        = some "timestamp outside allowed window" := by
  have hwin : 0 < s.window := by
    rw [hwcfg]
    exact newHMACWindow_pos ws
  have hbodyok : goEqFold r.bodySHA (hexEncode (env.sha256Bytes r.body)) = true := by
    rw [hbody]
    exact goEqFold_refl _
  have hane : r.authz ≠ "" := by
    rw [hauth]
    exact append_ne_empty _ _ (by decide)
  have hpre : goHasPre r.authz "HMAC " = true := by
    rw [hauth]
    exact goHasPre_append _ _
  refine ⟨?_, ?_, ?_, ?_⟩
  · rw [hmac_verify_sig_case env s (ts + s.window) ts r secret _ hk hsec hts hparse
      (by omega) (by omega) hbodyne hbodyok hmacb hauth, if_pos rfl]
  · rw [hmac_verify_sig_case env s (ts - s.window) ts r secret _ hk hsec hts hparse
      (by omega) (by omega) hbodyne hbodyok hmacb hauth, if_pos rfl]
  · exact hmac_verify_window_fail env s now₁ ts r secret hk hane hts hbodyne hsec
      hpre hparse (Or.inl hn₁)
  · exact hmac_verify_window_fail env s now₂ ts r secret hk hane hts hbodyne hsec
      hpre hparse (Or.inr hn₂)

/-! ### Shared concrete instances used by the witnesses -/

theorem trivCrypter_contract : CrypterContract trivCrypter := by
  intro p spec
  refine ⟨"D", ?_, rfl⟩
  show Except.ok (spec ++ "$D") = Except.ok (spec ++ "$" ++ "D")
  have h : spec ++ "$D" = spec ++ "$" ++ "D" := by
    apply String.ext
    simp [String.data_append]
  rw [h]

theorem C5_witness :
    ∃ h₁ h₂ : String,
      (DefaultHasher.Hash trivHashEnv someHasher "pw" AlgoCryptSHA256
          (some 5000) (some 1) [0]).1 = .ok h₁ ∧
      (DefaultHasher.Hash trivHashEnv someHasher "pw" AlgoCryptSHA256
          (some 5000) (some 1) [1]).1 = .ok h₂ ∧
      DefaultHasher.Verify trivHashEnv h₁ "pw" = (true, AlgoCryptSHA256, none) ∧
      DefaultHasher.Verify trivHashEnv h₂ "pw" = (true, AlgoCryptSHA256, none) ∧
      h₁ ≠ h₂ := by
  apply C5_crypt_roundtrip_salted trivHashEnv someHasher "pw" AlgoCryptSHA256
    5000 1 [0] [1] (Or.inr (Or.inl rfl))
    ⟨trivCrypter_contract, trivCrypter_contract, trivCrypter_contract⟩
    ⟨by omega, by omega⟩ ⟨by omega, by omega⟩ (by decide) (by decide)
  intro hcon
  have h1 : (randomSalt (1 : Int) [0]).1 = Except.ok "." := rfl
  have h2 : (randomSalt (1 : Int) [1]).1 = Except.ok "/" := rfl
  rw [h1, h2] at hcon
  simp at hcon

theorem C10_witness :
    DefaultHasher.Verify trivHashEnv ("" ++ hexEncode (trivHashEnv.md5Sum "x") ++ " ") "x"
        = (false, AlgoRawMD5, none) ∧
    DefaultHasher.Verify trivHashEnv (goToUpper (hexEncode (trivHashEnv.md5Sum "x"))) "x"
        = (true, AlgoRawMD5, none) :=
  C10_whitespace_detect_compare_asymmetry trivHashEnv "x" "" " " AlgoRawMD5
    trivHashEnv.md5Sum 16 (Or.inl ⟨rfl, rfl, rfl⟩) (by decide) (by decide)
    (by decide) (by decide) (by decide)

theorem C1_witness :
    HMACAuthenticator.Verify trivCryptoEnv someHmacAuth 0 hmacReq = none ∧
    HMACAuthenticator.Verify trivCryptoEnv someHmacAuth 0 { hmacReq with body := [7] }
      = some "body hash mismatch" := by
  have h := C1_hmac_valid_accepts_tamper_rejects trivCryptoEnv someHmacAuth 0 0 hmacReq
    [1, 2] "PUT" "/q" "" "XX" [7]
    (by decide) rfl (by decide) rfl (by decide) (by decide) (by decide) (by decide)
    (by decide) (by decide) (by decide) (by decide)
    (by intro t ht h1 h2; simp [trivCryptoEnv] at ht)
    (by decide)
  exact ⟨h.1, h.2.2.2.2⟩

theorem C4_witness :
    HMACAuthenticator.Verify trivCryptoEnv someHmacAuth (0 + someHmacAuth.window)
        hmacReq = none ∧
    HMACAuthenticator.Verify trivCryptoEnv someHmacAuth 301 hmacReq
      = some "timestamp outside allowed window" := by
  have h := C4_window_symmetric_inclusive trivCryptoEnv someHmacAuth 300 0 301 (-301)
    hmacReq [1, 2] (by decide) (by decide) rfl (by decide) rfl (by decide) (by decide)
    (by decide) (by decide) (by decide) (by decide)
  exact ⟨h.1, h.2.2.1⟩

theorem C7_witness :
    DefaultHasher.Hash trivHashEnv someHasher "pw" AlgoCryptSHA256
        (some 999) (some 16) []
      = (.error "rounds must be positive between 1000 and 999999999", []) ∧
    (validateParams 5000 16 = none) := by
  have h := C7_crypt_param_validation trivHashEnv someHasher "pw"
    AlgoCryptSHA256 999 16 [] (Or.inr (Or.inl rfl)) (by omega)
  exact ⟨h.1, (h.2 5000 16).mpr (by omega)⟩

end FsAccessApi
